import Mathlib

/-!
Verification of the IT onboarding checklist application.

This file shallowly embeds the logic of src/src/App.tsx: the task and
employee data model, the pure helpers (calcProgress, matchTaskHelper, toCSV,
cloneTemplate), the local storage adapter, a model of the remote document
store adapter, the subscription lifecycle of both adapters, and the webhook
notification path of the application's updateTask, and proves the
specification claims about them.
-/

namespace ITOnboarding

/-- Task status enumeration, the STATUSES constant of the source. -/
inductive Status where
  | notStarted
  | inProgress
  | blocked
  | done
  deriving DecidableEq

/-- The string rendering of a status; the source stores statuses as these
exact strings. -/
def statusStr : Status → String
  | Status.notStarted => "Not Started"
  | Status.inProgress => "In Progress"
  | Status.blocked => "Blocked"
  | Status.done => "Done"

/-- The Task record of the source (optional fields are Option). -/
structure Task where
  id : String
  category : String
  title : String
  status : Status
  owner : Option String := none
  dueDate : Option String := none
  notes : Option String := none
  deriving DecidableEq

/-- The Employee record of the source. -/
structure Employee where
  id : String
  name : String
  startDate : Option String := none
  role : Option String := none
  manager : Option String := none
  email : Option String := none
  tasks : List Task
  deriving DecidableEq

/-- The fixed local-storage key of the employee collection. -/
def STORAGE_KEY : String := "it-onboarding-v1"

/-- calcProgress from the source: total is the task count or 1 when zero
(the JS expression tasks.length or-else 1), done counts tasks whose status
is Done, and the result is Math.round of done / total * 100, embedded over
the rationals with the round-half-up rounding of Math.round. -/
def calcProgress (tasks : List Task) : ℤ :=
  round ((((tasks.filter (fun t => t.status = Status.done)).length : ℚ) /
    (((if tasks.length = 0 then 1 else tasks.length) : ℕ) : ℚ)) * 100)

/-- The filter object handed to matchTaskHelper: both fields optional. -/
structure TaskFilter where
  status : Option String := none
  owner : Option String := none
  deriving DecidableEq

/-- JS truthiness of an optional string: present and non-empty. -/
def truthy : Option String → Bool
  | none => false
  | some s => s != ""

/-- matchTaskHelper from the source: a truthy status filter must equal the
task's status string, a truthy owner filter must equal the task's owner
with an absent owner read as the empty string. -/
def matchTaskHelper (t : Task) (f : TaskFilter) : Bool :=
  if truthy f.status && (statusStr t.status != f.status.getD "") then false
  else if truthy f.owner && (t.owner.getD "" != f.owner.getD "") then false
  else true

lemma matchTaskHelper_eq_true_iff (t : Task) (f : TaskFilter) :
    matchTaskHelper t f = true ↔
      ((truthy f.status = true → statusStr t.status = f.status.getD "") ∧
       (truthy f.owner = true → t.owner.getD "" = f.owner.getD "")) := by
  unfold matchTaskHelper
  by_cases h1 : truthy f.status = true <;> by_cases h2 : truthy f.owner = true <;>
    simp [h1, h2, bne_iff_ne]

/-- Claim C4: calcProgress equals round of 100 times the Done count over the
total with the total treated as at least 1; the result is an integer in the
interval from 0 to 100 for every task list; the empty list gives 0 without
dividing by zero; and the two-task half-done example gives 50. -/
theorem claim_C4_calcProgress (tasks : List Task) :
    calcProgress tasks =
      round ((100 : ℚ) * ((tasks.filter (fun t => t.status = Status.done)).length : ℚ) /
        (((max tasks.length 1) : ℕ) : ℚ))
    ∧ 0 ≤ calcProgress tasks
    ∧ calcProgress tasks ≤ 100
    ∧ calcProgress [] = 0
    ∧ calcProgress
        [{ id := "1", category := "c", title := "a", status := Status.done },
         { id := "2", category := "c", title := "b", status := Status.notStarted }] = 50 := by
  have htot : ((if tasks.length = 0 then 1 else tasks.length) : ℕ) = max tasks.length 1 := by
    rcases Nat.eq_zero_or_pos tasks.length with h | h
    · simp [h]
    · rw [if_neg (Nat.pos_iff_ne_zero.mp h), Nat.max_eq_left h]
  have hd : (tasks.filter (fun t => t.status = Status.done)).length ≤ max tasks.length 1 := by
    have := List.length_filter_le (fun t => t.status = Status.done) tasks
    omega
  have ht0 : (0 : ℚ) < ((max tasks.length 1 : ℕ) : ℚ) := by
    have : 0 < max tasks.length 1 := by omega
    exact_mod_cast this
  have hq0 : (0 : ℚ) ≤
      ((tasks.filter (fun t => t.status = Status.done)).length : ℚ) /
        ((max tasks.length 1 : ℕ) : ℚ) * 100 := by positivity
  have hq100 :
      ((tasks.filter (fun t => t.status = Status.done)).length : ℚ) /
        ((max tasks.length 1 : ℕ) : ℚ) * 100 ≤ 100 := by
    have hdiv : ((tasks.filter (fun t => t.status = Status.done)).length : ℚ) /
        ((max tasks.length 1 : ℕ) : ℚ) ≤ 1 := by
      rw [div_le_one ht0]
      exact_mod_cast hd
    nlinarith
  refine ⟨?_, ?_, ?_, ?_, ?_⟩
  · unfold calcProgress
    rw [htot]
    congr 1
    ring
  · unfold calcProgress
    rw [htot, round_eq]
    refine Int.le_floor.mpr ?_
    rw [Int.cast_zero]
    linarith
  · unfold calcProgress
    rw [htot, round_eq]
    have h1 : ((tasks.filter (fun t => t.status = Status.done)).length : ℚ) /
        ((max tasks.length 1 : ℕ) : ℚ) * 100 + 1 / 2 ≤ (100 : ℚ) + 1 / 2 := by linarith
    calc ⌊((tasks.filter (fun t => t.status = Status.done)).length : ℚ) /
        ((max tasks.length 1 : ℕ) : ℚ) * 100 + 1 / 2⌋
        ≤ ⌊(100 : ℚ) + 1 / 2⌋ := Int.floor_mono h1
      _ = 100 := by
          rw [Int.floor_eq_iff]
          norm_num
  · have h0 : (([] : List Task).filter (fun t => t.status = Status.done)).length = 0 := rfl
    unfold calcProgress
    rw [h0]
    norm_num [round_zero]
  · have h1 : (([{ id := "1", category := "c", title := "a", status := Status.done },
        { id := "2", category := "c", title := "b",
          status := Status.notStarted }] : List Task).filter
        (fun t => t.status = Status.done)).length = 1 := rfl
    unfold calcProgress
    rw [h1]
    have h2 : ((((1 : ℕ) : ℚ)) /
        (((if ([{ id := "1", category := "c", title := "a", status := Status.done },
            { id := "2", category := "c", title := "b",
              status := Status.notStarted }] : List Task).length = 0 then 1
          else ([{ id := "1", category := "c", title := "a", status := Status.done },
            { id := "2", category := "c", title := "b",
              status := Status.notStarted }] : List Task).length) : ℕ) : ℚ) * 100) = (50 : ℚ) := by
      norm_num
    rw [h2]
    exact round_ofNat 50

/-- Claim C5: matchTaskHelper is true whenever every present filter field
agrees with the task (owner absence read as empty string), the all-absent
filter matches every task, and the owner filter Alice matches exactly the
tasks whose owner is Alice, with a differing or absent owner rejected. -/
theorem claim_C5_matches (t : Task) (f : TaskFilter) :
    ((∀ s, f.status = some s → statusStr t.status = s) →
     (∀ o, f.owner = some o → t.owner.getD "" = o) →
     matchTaskHelper t f = true)
    ∧ matchTaskHelper t { status := none, owner := none } = true
    ∧ (matchTaskHelper t { status := none, owner := some "Alice" } = true ↔
        t.owner = some "Alice") := by
  refine ⟨?_, ?_, ?_⟩
  · intro hs ho
    rw [matchTaskHelper_eq_true_iff]
    constructor
    · intro htr
      cases hfs : f.status with
      | none => rw [hfs] at htr; simp [truthy] at htr
      | some s => simpa using hs s hfs
    · intro htr
      cases hfo : f.owner with
      | none => rw [hfo] at htr; simp [truthy] at htr
      | some o => simpa using ho o hfo
  · rw [matchTaskHelper_eq_true_iff]
    constructor <;> intro h <;> simp [truthy] at h
  · rw [matchTaskHelper_eq_true_iff]
    constructor
    · intro h
      have := h.2 (by simp [truthy])
      cases howner : t.owner with
      | none => rw [howner] at this; simp at this
      | some o => rw [howner] at this; simp_all
    · intro h
      refine ⟨by intro hc; simp [truthy] at hc, by intro _; simp [h]⟩

/-- Claim C5 witness at a concrete task and filter. -/
theorem claim_C5_matches_witness :
    matchTaskHelper
      { id := "1", category := "Accounts", title := "Create email",
        status := Status.inProgress, owner := some "Bob" }
      { status := some "In Progress", owner := some "Bob" } = true :=
  (claim_C5_matches
    { id := "1", category := "Accounts", title := "Create email",
      status := Status.inProgress, owner := some "Bob" }
    { status := some "In Progress", owner := some "Bob" }).1
    (fun s hs => by cases hs; rfl)
    (fun o ho => by cases ho; rfl)

/-- A partial task patch, the Partial Task argument of updateTask: every
field optional, a present field overwrites the task's field on spread. -/
structure TaskPatch where
  id : Option String := none
  category : Option String := none
  title : Option String := none
  status : Option Status := none
  owner : Option String := none
  dueDate : Option String := none
  notes : Option String := none
  deriving DecidableEq

/-- The JS object spread of a patch over a task: present patch fields win,
absent ones keep the task's value. -/
def applyPatch (t : Task) (p : TaskPatch) : Task :=
  { id := p.id.getD t.id
    category := p.category.getD t.category
    title := p.title.getD t.title
    status := p.status.getD t.status
    owner := match p.owner with | some v => some v | none => t.owner
    dueDate := match p.dueDate with | some v => some v | none => t.dueDate
    notes := match p.notes with | some v => some v | none => t.notes }

/-- localAdapter.addEmployee: the collection is loaded, the new employee is
unshifted onto its head, and the result is stored back.  The backing store
is modeled at the granularity of the parsed employee list. -/
def addEmployeeLocal (data : List Employee) (e : Employee) : List Employee :=
  e :: data

/-- localAdapter.updateTask: map over the employees, leaving every employee
with a different id alone and patching, inside the matching employee, every
task whose id matches. -/
def updateTaskLocal (data : List Employee) (empId taskId : String)
    (p : TaskPatch) : List Employee :=
  data.map fun e =>
    if e.id = empId then
      { e with tasks := e.tasks.map fun t => if t.id = taskId then applyPatch t p else t }
    else e

/-- localAdapter.removeEmployee: keep exactly the employees whose id
differs. -/
def removeEmployeeLocal (data : List Employee) (empId : String) : List Employee :=
  data.filter fun e => e.id ≠ empId

lemma map_eq_self_of_mem {α : Type} (l : List α) (f : α → α)
    (h : ∀ a ∈ l, f a = a) : l.map f = l := by
  induction l with
  | nil => rfl
  | cons a as ih =>
      simp only [List.map_cons, h a (List.mem_cons_self a as)]
      rw [ih fun a ha => h a (List.mem_cons_of_mem _ ha)]

/-- Claim C2: updateTaskLocal patches exactly the matching task of the
matching employee, leaves the length, every other employee, every other
field of the matching employee, and every other task untouched, and when no
employee with the id owns a task with the task id the call is a silent
no-op returning the collection unchanged. -/
theorem claim_C2_updateTask (data : List Employee) (eId tId : String) (p : TaskPatch) :
    (updateTaskLocal data eId tId p).length = data.length
    ∧ (∀ (i : Nat) (h : i < data.length) (h2 : i < (updateTaskLocal data eId tId p).length),
        ((data[i].id ≠ eId → (updateTaskLocal data eId tId p)[i] = data[i])
         ∧ (data[i].id = eId →
             (updateTaskLocal data eId tId p)[i].id = data[i].id
             ∧ (updateTaskLocal data eId tId p)[i].name = data[i].name
             ∧ (updateTaskLocal data eId tId p)[i].startDate = data[i].startDate
             ∧ (updateTaskLocal data eId tId p)[i].role = data[i].role
             ∧ (updateTaskLocal data eId tId p)[i].manager = data[i].manager
             ∧ (updateTaskLocal data eId tId p)[i].email = data[i].email
             ∧ (updateTaskLocal data eId tId p)[i].tasks.length = data[i].tasks.length
             ∧ ∀ (j : Nat) (hj : j < data[i].tasks.length)
                 (hj2 : j < (updateTaskLocal data eId tId p)[i].tasks.length),
                 (data[i].tasks[j].id ≠ tId →
                    (updateTaskLocal data eId tId p)[i].tasks[j] = data[i].tasks[j])
                 ∧ (data[i].tasks[j].id = tId →
                    (updateTaskLocal data eId tId p)[i].tasks[j] =
                      applyPatch data[i].tasks[j] p))))
    ∧ ((∀ e ∈ data, e.id = eId → ∀ t ∈ e.tasks, t.id ≠ tId) →
        updateTaskLocal data eId tId p = data) := by
  refine ⟨by simp [updateTaskLocal], ?_, ?_⟩
  · intro i h h2
    have hget : (updateTaskLocal data eId tId p)[i] =
        (fun e : Employee =>
          if e.id = eId then
            { e with tasks := e.tasks.map fun t => if t.id = tId then applyPatch t p else t }
          else e) data[i] := by
      simp [updateTaskLocal]
    constructor
    · intro hne
      simp only [hget, if_neg hne]
    · intro heq
      simp only [hget, if_pos heq]
      refine ⟨trivial, trivial, trivial, trivial, trivial, trivial, by simp, ?_⟩
      intro j hj hj2
      constructor
      · intro hne
        simp only [List.getElem_map, if_neg hne]
      · intro htq
        simp only [List.getElem_map, if_pos htq]
  · intro hnone
    unfold updateTaskLocal
    refine map_eq_self_of_mem _ _ fun e he => ?_
    by_cases hid : e.id = eId
    · rw [if_pos hid]
      have htasks : (e.tasks.map fun t => if t.id = tId then applyPatch t p else t) = e.tasks :=
        map_eq_self_of_mem _ _ fun t ht => if_neg (hnone e he hid t ht)
      rw [htasks]
    · rw [if_neg hid]

/-- Claim C2 witness: a concrete store where the employee exists but the
task id does not, so the call resolves to the unchanged collection, and the
index-wise part evaluated at the single employee. -/
theorem claim_C2_updateTask_witness :
    updateTaskLocal
      [{ id := "e1", name := "A",
         tasks := [{ id := "t1", category := "c", title := "x",
                     status := Status.notStarted }] }]
      "e1" "zz" { status := some Status.done } =
      [{ id := "e1", name := "A",
         tasks := [{ id := "t1", category := "c", title := "x",
                     status := Status.notStarted }] }] :=
  (claim_C2_updateTask
    [{ id := "e1", name := "A",
       tasks := [{ id := "t1", category := "c", title := "x",
                   status := Status.notStarted }] }]
    "e1" "zz" { status := some Status.done }).2.2
    (by
      intro e he hid t ht
      simp only [List.mem_singleton] at he
      subst he
      simp only [List.mem_singleton] at ht
      subst ht
      decide)

/-- A parent document of the remote document store: the employee fields
written by the remote addEmployee (strings, absent values already folded to
the empty string) together with its tasks sub-collection, keyed by the
document id. -/
structure RemoteEmp where
  id : String
  name : String
  email : String := ""
  role : String := ""
  manager : String := ""
  startDate : String := ""
  tasks : List Task := []
  deriving DecidableEq

/-- The Employee produced for a remote document by the remote load, which
reads each field with an empty-string default. -/
def convRemote (d : RemoteEmp) : Employee :=
  { id := d.id, name := d.name, startDate := some d.startDate,
    role := some d.role, manager := some d.manager, email := some d.email,
    tasks := d.tasks }

/-- The orderBy name comparison of the remote load query. -/
def byName (a b : RemoteEmp) : Prop := a.name ≤ b.name

instance : DecidableRel byName := fun a b =>
  inferInstanceAs (Decidable (a.name ≤ b.name))

/-- The remote load: read the parent collection ordered by name and read
each employee's tasks sub-collection. -/
def remoteLoad (s : List RemoteEmp) : List Employee :=
  (List.insertionSort byName s).map convRemote

/-- The remote removeEmployee: delete every task document of the employee,
then delete the parent document itself. -/
def remoteRemoveEmployee (s : List RemoteEmp) (empId : String) : List RemoteEmp :=
  (s.map fun d => if d.id = empId then { d with tasks := [] } else d).filter
    fun d => d.id ≠ empId

/-- A setDoc of a task document keyed by its id: overwrite the document of
the same id, or create it. -/
def upsertTask (l : List Task) (t : Task) : List Task :=
  if l.any fun x => x.id = t.id then l.map fun x => if x.id = t.id then t else x
  else l ++ [t]

/-- The remote addEmployee: a setDoc of the parent document keyed by the
employee id (creating or overwriting it) followed by a setDoc for each
task document keyed by the task id. -/
def remoteAddEmployee (s : List RemoteEmp) (e : Employee) : List RemoteEmp :=
  if s.any fun d => d.id = e.id then
    s.map fun d =>
      if d.id = e.id then
        { id := d.id, name := e.name, email := e.email.getD "",
          role := e.role.getD "", manager := e.manager.getD "",
          startDate := e.startDate.getD "", tasks := e.tasks.foldl upsertTask d.tasks }
      else d
  else
    s ++ [{ id := e.id, name := e.name, email := e.email.getD "",
            role := e.role.getD "", manager := e.manager.getD "",
            startDate := e.startDate.getD "", tasks := e.tasks.foldl upsertTask [] }]

lemma filter_map_comm {α β : Type} (l : List α) (f : α → β) (p : β → Bool) :
    (l.map f).filter p = (l.filter fun a => p (f a)).map f := by
  induction l with
  | nil => rfl
  | cons a as ih =>
      by_cases h : p (f a) = true
      · simp [List.filter_cons, h, ih]
      · simp only [Bool.not_eq_true] at h
        simp [List.filter_cons, h, ih]

lemma filter_map_invariant {α : Type} (l : List α) (f : α → α) (p : α → Bool)
    (h1 : ∀ a, p a = true → f a = a) (h2 : ∀ a, p (f a) = p a) :
    (l.map f).filter p = l.filter p := by
  induction l with
  | nil => rfl
  | cons a as ih =>
      by_cases h : p a = true
      · simp [List.filter_cons, h2, h, h1 a h, ih]
      · simp only [Bool.not_eq_true] at h
        simp [List.filter_cons, h2, h, ih]

/-- Claim C3: after removeEmployee the loaded collection is the prior one
with every employee of the removed id gone.  Locally the result is exactly
the filtered collection (a sublist of the prior one, membership preserved
both ways with full task lists).  Remotely the loaded collection after the
removal is a permutation of the prior loaded collection filtered on the id,
and no employee of the removed id survives, so none of its tasks appear. -/
theorem claim_C3_removeEmployee (data : List Employee) (s : List RemoteEmp)
    (empId : String) :
    (∀ e ∈ removeEmployeeLocal data empId, e ∈ data ∧ e.id ≠ empId)
    ∧ (∀ e ∈ data, e.id ≠ empId → e ∈ removeEmployeeLocal data empId)
    ∧ List.Sublist (removeEmployeeLocal data empId) data
    ∧ List.Perm (remoteLoad (remoteRemoveEmployee s empId))
        ((remoteLoad s).filter fun e => e.id ≠ empId)
    ∧ (∀ e ∈ remoteLoad (remoteRemoveEmployee s empId), e.id ≠ empId) := by
  have hremote : remoteRemoveEmployee s empId = s.filter fun d => d.id ≠ empId := by
    unfold remoteRemoveEmployee
    refine filter_map_invariant s _ _ (fun d hd => ?_) (fun d => ?_)
    · have : d.id ≠ empId := by simpa using hd
      simp [this]
    · by_cases h : d.id = empId <;> simp [h]
  have hperm : List.Perm (remoteLoad (remoteRemoveEmployee s empId))
      ((remoteLoad s).filter fun e => e.id ≠ empId) := by
    rw [hremote]
    unfold remoteLoad
    rw [filter_map_comm]
    have h1 : List.Perm (List.insertionSort byName (s.filter fun d => d.id ≠ empId))
        (s.filter fun d => d.id ≠ empId) := List.perm_insertionSort _ _
    have h2 : List.Perm ((List.insertionSort byName s).filter
        fun d => decide ((convRemote d).id ≠ empId)) (s.filter fun d => d.id ≠ empId) := by
      have hsort : List.Perm (List.insertionSort byName s) s := List.perm_insertionSort _ _
      have := hsort.filter fun d => decide ((convRemote d).id ≠ empId)
      refine this.trans ?_
      have hsame : ∀ d : RemoteEmp,
          (decide ((convRemote d).id ≠ empId)) = (decide (d.id ≠ empId)) := fun d => rfl
      simp only [hsame]
      exact List.Perm.refl _
    exact (h1.map convRemote).trans ((h2.map convRemote).symm)
  refine ⟨?_, ?_, ?_, hperm, ?_⟩
  · intro e he
    unfold removeEmployeeLocal at he
    have := List.of_mem_filter he
    exact ⟨List.mem_of_mem_filter he, by simpa using this⟩
  · intro e he hne
    unfold removeEmployeeLocal
    exact List.mem_filter.mpr ⟨he, by simpa using hne⟩
  · exact List.filter_sublist data
  · intro e he
    have hmem := hperm.mem_iff.mp he
    have := List.of_mem_filter hmem
    simpa using this

/-- Claim C3 witness at a concrete one-employee store, locally and
remotely. -/
theorem claim_C3_removeEmployee_witness :
    ({ id := "e1", name := "A", tasks := [] } : Employee) ∈
      removeEmployeeLocal [{ id := "e1", name := "A", tasks := [] }] "zz" :=
  ((claim_C3_removeEmployee [{ id := "e1", name := "A", tasks := [] }] [] "zz").2.1
    { id := "e1", name := "A", tasks := [] }
    (List.mem_singleton.mpr rfl) (by decide))

/-- One mutating call of the local adapter interface. -/
inductive LocalOp where
  | add (e : Employee)
  | update (empId taskId : String) (p : TaskPatch)
  | remove (empId : String)

/-- Apply one local adapter call to the backing store. -/
def applyLocalOp (data : List Employee) : LocalOp → List Employee
  | LocalOp.add e => addEmployeeLocal data e
  | LocalOp.update empId taskId p => updateTaskLocal data empId taskId p
  | LocalOp.remove empId => removeEmployeeLocal data empId

/-- Run a sequence of local adapter calls from a starting store; the stores
reachable from the empty store are exactly the results of such runs. -/
def runLocalOps (data : List Employee) (ops : List LocalOp) : List Employee :=
  ops.foldl applyLocalOp data

lemma remoteRemove_eq_filter (s : List RemoteEmp) (empId : String) :
    remoteRemoveEmployee s empId = s.filter fun d => d.id ≠ empId := by
  unfold remoteRemoveEmployee
  refine filter_map_invariant s _ _ (fun d hd => ?_) (fun d => ?_)
  · have : d.id ≠ empId := by simpa using hd
    simp [this]
  · by_cases h : d.id = empId <;> simp [h]

/-- Claim C9 (amended): updateTask and removeEmployee always preserve the
uniqueness of employee ids, the remote addEmployee preserves it
unconditionally because documents are keyed by id (re-adding an existing id
overwrites), and the local addEmployee, which performs no check, preserves
it exactly when the inserted id is not already present. -/
theorem claim_C9_unique_ids (data : List Employee) (e : Employee)
    (empId taskId : String) (p : TaskPatch) (s : List RemoteEmp) :
    ((data.map Employee.id).Nodup → e.id ∉ data.map Employee.id →
      ((addEmployeeLocal data e).map Employee.id).Nodup)
    ∧ ((data.map Employee.id).Nodup →
      ((updateTaskLocal data empId taskId p).map Employee.id).Nodup)
    ∧ ((data.map Employee.id).Nodup →
      ((removeEmployeeLocal data empId).map Employee.id).Nodup)
    ∧ ((s.map RemoteEmp.id).Nodup →
      ((remoteAddEmployee s e).map RemoteEmp.id).Nodup)
    ∧ ((s.map RemoteEmp.id).Nodup →
      ((remoteRemoveEmployee s empId).map RemoteEmp.id).Nodup) := by
  refine ⟨?_, ?_, ?_, ?_, ?_⟩
  · intro hn hfresh
    unfold addEmployeeLocal
    rw [List.map_cons]
    exact List.nodup_cons.mpr ⟨hfresh, hn⟩
  · intro hn
    have hids : (updateTaskLocal data empId taskId p).map Employee.id =
        data.map Employee.id := by
      unfold updateTaskLocal
      rw [List.map_map]
      refine List.map_congr_left fun a _ => ?_
      by_cases h : a.id = empId <;> simp [h]
    rw [hids]; exact hn
  · intro hn
    unfold removeEmployeeLocal
    exact List.Nodup.sublist ((List.filter_sublist data).map Employee.id) hn
  · intro hn
    unfold remoteAddEmployee
    by_cases hany : (s.any fun d => d.id = e.id) = true
    · rw [if_pos hany]
      have hids : (s.map fun d =>
          if d.id = e.id then
            { id := d.id, name := e.name, email := e.email.getD "",
              role := e.role.getD "", manager := e.manager.getD "",
              startDate := e.startDate.getD "",
              tasks := e.tasks.foldl upsertTask d.tasks : RemoteEmp }
          else d).map RemoteEmp.id = s.map RemoteEmp.id := by
        rw [List.map_map]
        refine List.map_congr_left fun a _ => ?_
        by_cases h : a.id = e.id <;> simp [h]
      rw [hids]; exact hn
    · rw [if_neg hany]
      rw [List.map_append]
      rw [List.nodup_append]
      refine ⟨hn, List.nodup_singleton _, ?_⟩
      intro x hx hx2
      simp only [Bool.not_eq_true, List.any_eq_false,
        decide_eq_false_iff_not] at hany
      simp only [List.map_cons, List.map_nil, List.mem_singleton] at hx2
      rcases List.mem_map.mp hx with ⟨d, hd, hdx⟩
      exact hany d hd (by rw [hdx, hx2])
  · intro hn
    rw [remoteRemove_eq_filter]
    exact List.Nodup.sublist ((List.filter_sublist s).map RemoteEmp.id) hn

/-- Claim C9 witness: concrete one-element stores through each conjunct. -/
theorem claim_C9_unique_ids_witness :
    ((addEmployeeLocal [{ id := "e1", name := "A", tasks := [] }]
        { id := "e2", name := "B", tasks := [] }).map Employee.id).Nodup
    ∧ ((remoteAddEmployee [{ id := "e1", name := "A" }]
        { id := "e1", name := "B", tasks := [] }).map RemoteEmp.id).Nodup :=
  ⟨(claim_C9_unique_ids [{ id := "e1", name := "A", tasks := [] }]
      { id := "e2", name := "B", tasks := [] } "x" "y" {} []).1
      (by decide) (by decide),
   (claim_C9_unique_ids [] { id := "e1", name := "B", tasks := [] } "x" "y" {}
      [{ id := "e1", name := "A" }]).2.2.2.1 (by decide)⟩

/-- Claim C9 counterexample: the claim as stated is false, because the
local addEmployee performs no uniqueness check: adding the same employee id
twice, each call a legal adapter operation from the empty store, reaches a
store whose two employees share an id. -/
theorem claim_C9_counterexample :
    ¬ ((runLocalOps []
        [LocalOp.add { id := "e1", name := "A", tasks := [] },
         LocalOp.add { id := "e1", name := "B", tasks := [] }]).map Employee.id).Nodup := by
  decide

/-- The fixed default template categories and task titles. -/
def DEFAULT_CATEGORIES : List (String × List String) :=
  [("Accounts", ["Create email", "Add to domain", "Set up MFA"]),
   ("Hardware", ["Assign laptop", "Issue monitor", "Peripherals (kb/mouse)"]),
   ("Software", ["Install Office/365", "Install Zoom", "Install Endpoint Protection"]),
   ("Access", ["VPN access", "Add to network shares", "Add to Jira/Confluence"]),
   ("Orientation",
    ["Add to internal wiki", "Welcome email", "First-day checklist walk-through"]),
   ("Compliance & Security",
    ["Clearance status check",
     "Security+ certification (Have / Not / In progress)",
     "Apply for corporate card",
     "Set up Concur",
     "Complete all CBT trainings"])]

/-- Clone one category's titles into tasks: i is the category index, j the
task index inside the category (the due date is staggered by i plus j
days), and k the global call counter of the uid generator, whose random
draws are the stream rand; dateOf renders the date i plus j days out. -/
def cloneTasks (rand dateOf : Nat → String) (name : String) :
    List String → Nat → Nat → Nat → List Task
  | [], _, _, _ => []
  | title :: rest, i, j, k =>
      { id := "task_" ++ rand k, category := name, title := title,
        status := Status.notStarted, dueDate := some (dateOf (i + j)) } ::
        cloneTasks rand dateOf name rest i (j + 1) (k + 1)

/-- Clone the categories in order, threading the uid call counter. -/
def cloneCats (rand dateOf : Nat → String) :
    List (String × List String) → Nat → Nat → List Task
  | [], _, _ => []
  | (name, titles) :: rest, i, k =>
      cloneTasks rand dateOf name titles i 0 k ++
        cloneCats rand dateOf rest (i + 1) (k + titles.length)

/-- cloneTemplate from the source, over an explicit stream of the random
draws consumed by uid and an explicit date renderer. -/
def cloneTemplate (rand dateOf : Nat → String) : List Task :=
  cloneCats rand dateOf DEFAULT_CATEGORIES 0 0

/-- Claim C8 (amended): cloneTemplate always returns as many tasks as the
sum of the task counts of all template categories, and the generated task
ids are pairwise distinct whenever the twenty underlying random draws of
the call are pairwise distinct; id generation is collision-resistant, not
collision-proof, so distinct draws cannot be dropped. -/
theorem claim_C8_cloneTemplate (rand dateOf : Nat → String)
    (hr : ∀ k1, k1 < 20 → ∀ k2, k2 < 20 → rand k1 = rand k2 → k1 = k2) :
    (cloneTemplate rand dateOf).length =
      (DEFAULT_CATEGORIES.map fun c => c.2.length).sum
    ∧ ((cloneTemplate rand dateOf).map Task.id).Nodup := by
  refine ⟨rfl, ?_⟩
  have hids : (cloneTemplate rand dateOf).map Task.id =
      (List.range 20).map fun k => "task_" ++ rand k := rfl
  rw [hids]
  refine (List.nodup_range 20).map_on ?_
  intro x hx y hy hf
  have hdata := congrArg String.data hf
  rw [String.data_append, String.data_append] at hdata
  have hr2 : rand x = rand y := String.ext (List.append_cancel_left hdata)
  exact hr x (List.mem_range.mp hx) y (List.mem_range.mp hy) hr2

/-- Claim C8 witness: a concrete injective draw stream gives all-distinct
task ids. -/
theorem claim_C8_cloneTemplate_witness :
    ((cloneTemplate (fun k => String.mk (List.replicate k 'a'))
        (fun _ => "")).map Task.id).Nodup :=
  (claim_C8_cloneTemplate (fun k => String.mk (List.replicate k 'a'))
    (fun _ => "") (by decide)).2

/-- Claim C8 counterexample: the claim as stated, that every call yields
unique ids, is false, because uid draws from Math.random with no
uniqueness guarantee: a call whose draws coincide yields duplicate ids. -/
theorem claim_C8_counterexample :
    ¬ ((cloneTemplate (fun _ => "r") (fun _ => "")).map Task.id).Nodup := by
  decide

/-- The field escaper of toCSV: every double quote is doubled, character by
character, as by the global regex replace of the source. -/
def escChars : List Char → List Char
  | [] => []
  | c :: cs => if c = '"' then '"' :: '"' :: escChars cs else c :: escChars cs

/-- esc of toCSV: the stringified value (null and undefined already folded
to the empty string) with quotes doubled, wrapped in double quotes. -/
def esc (s : String) : String :=
  String.mk ('"' :: (escChars s.data ++ ['"']))

/-- Array.prototype.join with a separator string. -/
def joinSep (sep : String) : List String → String
  | [] => ""
  | [x] => x
  | x :: y :: rest => x ++ sep ++ joinSep sep (y :: rest)

/-- The keys of all records in encounter order, with repetitions, as the
flatMap of Object.keys over the rows. -/
def allKeys : List (List (String × String)) → List String
  | [] => []
  | r :: rs => r.map Prod.fst ++ allKeys rs

/-- First-occurrence deduplication, the Array.from of a Set built by
insertion. -/
def firstDedup (seen : List String) : List String → List String
  | [] => []
  | k :: ks => if k ∈ seen then firstDedup seen ks else k :: firstDedup (k :: seen) ks

/-- The header list of toCSV: the union of all row keys in first-encounter
order. -/
def csvHeaders (rows : List (List (String × String))) : List String :=
  firstDedup [] (allKeys rows)

/-- One data row of toCSV: the escaped value of each header key, with a
missing key read as the empty string. -/
def rowLine (headers : List String) (r : List (String × String)) : String :=
  joinSep "," (headers.map fun h => esc ((List.lookup h r).getD ""))

/-- toCSV from the source: the comma-joined header row followed by one
comma-joined data row per record, all joined by newlines. -/
def toCSV (rows : List (List (String × String))) : String :=
  joinSep "\n"
    (joinSep "," (csvHeaders rows) :: rows.map (rowLine (csvHeaders rows)))

lemma mem_firstDedup (k : String) (l seen : List String) :
    k ∈ firstDedup seen l ↔ k ∈ l ∧ k ∉ seen := by
  induction l generalizing seen with
  | nil => simp [firstDedup]
  | cons a as ih =>
      by_cases ha : a ∈ seen
      · rw [firstDedup, if_pos ha, ih]
        constructor
        · rintro ⟨h1, h2⟩
          exact ⟨List.mem_cons_of_mem _ h1, h2⟩
        · rintro ⟨h1, h2⟩
          rcases List.mem_cons.mp h1 with h | h
          · subst h; exact absurd ha h2
          · exact ⟨h, h2⟩
      · rw [firstDedup, if_neg ha]
        constructor
        · intro h
          rcases List.mem_cons.mp h with h | h
          · subst h; exact ⟨List.mem_cons_self _ _, ha⟩
          · rcases (ih (a :: seen)).mp h with ⟨h1, h2⟩
            exact ⟨List.mem_cons_of_mem _ h1,
              fun hc => h2 (List.mem_cons_of_mem _ hc)⟩
        · rintro ⟨h1, h2⟩
          rcases List.mem_cons.mp h1 with h | h
          · subst h; exact List.mem_cons_self _ _
          · by_cases hka : k = a
            · subst hka; exact List.mem_cons_self _ _
            · refine List.mem_cons_of_mem _ ((ih (a :: seen)).mpr ⟨h, ?_⟩)
              intro hc
              rcases List.mem_cons.mp hc with hc | hc
              · exact hka hc
              · exact h2 hc

lemma nodup_firstDedup (l seen : List String) : (firstDedup seen l).Nodup := by
  induction l generalizing seen with
  | nil => exact List.nodup_nil
  | cons a as ih =>
      by_cases ha : a ∈ seen
      · rw [firstDedup, if_pos ha]; exact ih seen
      · rw [firstDedup, if_neg ha]
        refine List.nodup_cons.mpr ⟨?_, ih (a :: seen)⟩
        intro hc
        exact absurd (List.mem_cons_self a seen) ((mem_firstDedup a as (a :: seen)).mp hc).2

lemma mem_allKeys (k : String) (rows : List (List (String × String))) :
    k ∈ allKeys rows ↔ ∃ r ∈ rows, ∃ v, (k, v) ∈ r := by
  induction rows with
  | nil => simp [allKeys]
  | cons r rs ih =>
      rw [allKeys, List.mem_append, ih]
      constructor
      · rintro (h | ⟨r2, hr2, v, hv⟩)
        · rcases List.mem_map.mp h with ⟨kv, hkv, hk⟩
          refine ⟨r, List.mem_cons_self _ _, kv.2, ?_⟩
          have hkv2 : (k, kv.2) = kv := by rw [← hk]
          rw [hkv2]; exact hkv
        · exact ⟨r2, List.mem_cons_of_mem _ hr2, v, hv⟩
      · rintro ⟨r2, hr2, v, hv⟩
        rcases List.mem_cons.mp hr2 with h | h
        · subst h
          exact Or.inl (List.mem_map.mpr ⟨(k, v), hv, rfl⟩)
        · exact Or.inr ⟨r2, h, v, hv⟩

lemma lookup_mem {r : List (String × String)} {k v : String}
    (h : List.lookup k r = some v) : (k, v) ∈ r := by
  induction r with
  | nil => simp [List.lookup] at h
  | cons a as ih =>
      rw [List.lookup] at h
      by_cases hk : k = a.1
      · have hbeq : (k == a.1) = true := beq_iff_eq.mpr hk
        rw [hbeq] at h
        have hv : a.2 = v := Option.some_inj.mp h
        have hkv : (k, v) = a := by rw [hk, ← hv]
        rw [hkv]
        exact List.mem_cons_self _ _
      · have hbeq : (k == a.1) = false := beq_eq_false_iff_ne.mpr hk
        rw [hbeq] at h
        exact List.mem_cons_of_mem _ (ih h)

lemma count_escChars_quote (cs : List Char) :
    (escChars cs).count '"' = 2 * cs.count '"' := by
  induction cs with
  | nil => rfl
  | cons c cs ih =>
      by_cases h : c = '"'
      · subst h
        rw [escChars, if_pos rfl]
        simp [List.count_cons, ih]
        ring
      · rw [escChars, if_neg h]
        simp [List.count_cons, ih, h]

lemma count_escChars_ne (c : Char) (hc : c ≠ '"') (cs : List Char) :
    (escChars cs).count c = cs.count c := by
  induction cs with
  | nil => rfl
  | cons a cs ih =>
      by_cases h : a = '"'
      · subst h
        rw [escChars, if_pos rfl]
        simp [List.count_cons, ih, Ne.symm hc]
      · rw [escChars, if_neg h]
        simp [List.count_cons, ih]

lemma count_esc_ne (c : Char) (hc : c ≠ '"') (s : String) :
    (esc s).data.count c = s.data.count c := by
  unfold esc
  simp [List.count_cons, List.count_append, count_escChars_ne c hc, Ne.symm hc]

lemma count_joinSep_zero (c : Char) (sep : String) (hsep : sep.data.count c = 0)
    (l : List String) (hl : ∀ s ∈ l, s.data.count c = 0) :
    (joinSep sep l).data.count c = 0 := by
  induction l with
  | nil => rfl
  | cons x xs ih =>
      cases xs with
      | nil => exact hl x (List.mem_cons_self _ _)
      | cons y rest =>
          rw [joinSep]
          rw [String.data_append, String.data_append]
          rw [List.count_append, List.count_append]
          rw [hl x (List.mem_cons_self _ _), hsep,
            ih fun s hs => hl s (List.mem_cons_of_mem _ hs)]

lemma count_joinSep_newline (l : List String)
    (hl : ∀ s ∈ l, s.data.count '\n' = 0) :
    (joinSep "\n" l).data.count '\n' = l.length - 1 := by
  induction l with
  | nil => rfl
  | cons x xs ih =>
      cases xs with
      | nil => simp [joinSep, hl x (List.mem_cons_self _ _)]
      | cons y rest =>
          rw [joinSep]
          rw [String.data_append, String.data_append]
          rw [List.count_append, List.count_append]
          rw [hl x (List.mem_cons_self _ _),
            ih fun s hs => hl s (List.mem_cons_of_mem _ hs)]
          simp [List.count_cons]
          omega

/-- Claim C7 (amended): the header row of toCSV is exactly the union of all
records' keys, each once; every field is wrapped in double quotes with
internal double quotes doubled; and provided no key or value contains a
newline, the output has exactly one newline per record, hence a header line
plus exactly one data line per record (a value containing a newline spans
extra physical lines, since the escaper does not touch newlines). -/
theorem claim_C7_toCSV (rows : List (List (String × String))) :
    (∀ k, k ∈ csvHeaders rows ↔ ∃ r ∈ rows, ∃ v, (k, v) ∈ r)
    ∧ (csvHeaders rows).Nodup
    ∧ ((∀ r ∈ rows, ∀ kv ∈ r,
          (kv : String × String).1.data.count '\n' = 0 ∧ kv.2.data.count '\n' = 0) →
        (toCSV rows).data.count '\n' = rows.length)
    ∧ (∀ str : String,
        (esc str).data.count '"' = 2 * str.data.count '"' + 2
        ∧ (esc str).data.head? = some '"'
        ∧ (esc str).data.getLast? = some '"') := by
  refine ⟨?_, nodup_firstDedup _ _, ?_, ?_⟩
  · intro k
    rw [csvHeaders, mem_firstDedup, mem_allKeys]
    simp
  · intro hnl
    have hkeys : ∀ k ∈ csvHeaders rows, k.data.count '\n' = 0 := by
      intro k hk
      rcases ((mem_firstDedup k (allKeys rows) []).mp hk).1 |> (mem_allKeys k rows).mp
        with ⟨r, hr, v, hv⟩
      exact (hnl r hr (k, v) hv).1
    have hcells : ∀ r ∈ rows, ∀ h ∈ csvHeaders rows,
        (esc ((List.lookup h r).getD "")).data.count '\n' = 0 := by
      intro r hr h hh
      rw [count_esc_ne '\n' (by decide)]
      cases hlook : List.lookup h r with
      | none => rfl
      | some v =>
          have := lookup_mem hlook
          simpa using (hnl r hr (h, v) this).2
    have hparts : ∀ s ∈ joinSep "," (csvHeaders rows) ::
        rows.map (rowLine (csvHeaders rows)), s.data.count '\n' = 0 := by
      intro s hs
      rcases List.mem_cons.mp hs with h | h
      · subst h
        exact count_joinSep_zero '\n' "," (by decide) _ hkeys
      · rcases List.mem_map.mp h with ⟨r, hr, hrl⟩
        subst hrl
        rw [rowLine]
        refine count_joinSep_zero '\n' "," (by decide) _ ?_
        intro cell hcell
        rcases List.mem_map.mp hcell with ⟨hkey, hhk, hc⟩
        subst hc
        exact hcells r hr hkey hhk
    rw [toCSV, count_joinSep_newline _ hparts]
    simp
  · intro str
    refine ⟨?_, rfl, ?_⟩
    · unfold esc
      simp [List.count_cons, List.count_append, count_escChars_quote]
    · unfold esc
      show ('"' :: (escChars str.data ++ ['"'])).getLast? = some '"'
      rw [← List.cons_append]
      exact List.getLast?_concat _

/-- Claim C7 witness: the dev-test shape, two records with differing key
order, gives exactly two newlines, a header line plus two data lines. -/
theorem claim_C7_toCSV_witness :
    (toCSV [[("a", "1"), ("b", ",x")], [("b", "2"), ("a", "3")]]).data.count '\n' = 2 :=
  (claim_C7_toCSV [[("a", "1"), ("b", ",x")], [("b", "2"), ("a", "3")]]).2.2.1 (by decide)

/-- Claim C7 counterexample: the claim as stated is false for a value
containing a newline: a single record yields two newlines, three physical
lines rather than a header line plus one data line. -/
theorem claim_C7_counterexample :
    (toCSV [[("a", "x\ny")]]).data.count '\n' ≠ [[("a", "x\ny")]].length := by
  decide

/-- The webhook-relevant application settings. -/
structure WebhookSettings where
  webhookEnabled : Bool
  webhookUrl : String
  deriving DecidableEq

/-- The JSON body POSTed to the webhook URL. -/
structure WebhookPayload where
  empId : String
  taskId : String
  patch : TaskPatch
  event : String
  timestamp : String
  deriving DecidableEq

/-- The JS condition patch.status or-else patch.owner: a present status is
always truthy because every status string is non-empty, a present owner is
truthy only when non-empty. -/
def patchTriggers (p : TaskPatch) : Bool :=
  p.status.isSome || truthy p.owner

/-- The application-level updateTask: the adapter mutation (modeled by the
local adapter) and, when the webhook is enabled with a URL and the patch
carries a status or truthy owner, one fire-and-forget notification whose
delivery outcome is never consulted, so the stored result is the adapter
result regardless. -/
def appUpdateTask (st : WebhookSettings) (data : List Employee)
    (empId taskId : String) (p : TaskPatch) (now : String) :
    List Employee × List WebhookPayload :=
  (updateTaskLocal data empId taskId p,
   if st.webhookEnabled && (st.webhookUrl != "") && patchTriggers p then
     [{ empId := empId, taskId := taskId, patch := p, event := "task.updated",
        timestamp := now }]
   else [])

/-- Claim C6 (amended): when the webhook is enabled and a URL is
configured, an updateTask whose patch carries a status or a non-empty owner
fires exactly one notification holding the event name task.updated, the
timestamp, the employee id, the task id and the patch; a patch touching
neither fires none; and the stored mutation result is exactly the adapter
result, independent of the notification, whose failure is caught and never
rolls the mutation back. -/
theorem claim_C6_webhook (st : WebhookSettings) (data : List Employee)
    (empId taskId : String) (p : TaskPatch) (now : String) :
    (st.webhookEnabled = true → st.webhookUrl ≠ "" → patchTriggers p = true →
      (appUpdateTask st data empId taskId p now).2 =
        [{ empId := empId, taskId := taskId, patch := p, event := "task.updated",
           timestamp := now }])
    ∧ (patchTriggers p = false → (appUpdateTask st data empId taskId p now).2 = [])
    ∧ (appUpdateTask st data empId taskId p now).1 = updateTaskLocal data empId taskId p := by
  refine ⟨?_, ?_, rfl⟩
  · intro h1 h2 h3
    have hcond : (st.webhookEnabled && (st.webhookUrl != "") && patchTriggers p) = true := by
      simp [h1, h2, h3]
    simp [appUpdateTask, hcond]
  · intro h
    have hcond : (st.webhookEnabled && (st.webhookUrl != "") && patchTriggers p) = false := by
      simp [h]
    simp [appUpdateTask, hcond]

/-- Claim C6 witness: an enabled webhook and a status patch on a concrete
store fire the single expected payload. -/
theorem claim_C6_webhook_witness :
    (appUpdateTask { webhookEnabled := true, webhookUrl := "https://hook" }
      [{ id := "e1", name := "A",
         tasks := [{ id := "t1", category := "c", title := "x",
                     status := Status.notStarted }] }]
      "e1" "t1" { status := some Status.done } "2025-08-10T12:34:56.000Z").2 =
      [{ empId := "e1", taskId := "t1", patch := { status := some Status.done },
         event := "task.updated", timestamp := "2025-08-10T12:34:56.000Z" }] :=
  (claim_C6_webhook { webhookEnabled := true, webhookUrl := "https://hook" }
    [{ id := "e1", name := "A",
       tasks := [{ id := "t1", category := "c", title := "x",
                   status := Status.notStarted }] }]
    "e1" "t1" { status := some Status.done } "2025-08-10T12:34:56.000Z").1
    rfl (by decide) rfl

/-- Claim C6 counterexample: the claim as stated is false because the code
only notifies when the webhook is enabled and a URL is set: with the
webhook disabled, a status-changing patch on an existing task fires no
notification rather than exactly one. -/
theorem claim_C6_counterexample :
    (appUpdateTask { webhookEnabled := false, webhookUrl := "https://hook" }
      [{ id := "e1", name := "A",
         tasks := [{ id := "t1", category := "c", title := "x",
                     status := Status.notStarted }] }]
      "e1" "t1" { status := some Status.done } "ts").2.length ≠ 1 := by
  decide

/-- The parse outcome carried by a cross-tab storage event: a parsed
employee list or a JSON.parse failure (which the handler swallows). -/
inductive ParseResult where
  | ok (l : List Employee)
  | malformed
  deriving DecidableEq

/-- The events a local subscription can observe: the completion of the
initial asynchronous load scheduled by subscribe, a browser storage event
with its key and parsed newValue (none models a null newValue, delivered as
the empty list), and the call of the returned disposer. -/
inductive LEvent where
  | initDone
  | storage (key : String) (newValue : Option ParseResult)
  | unsub
  deriving DecidableEq

/-- What the storage handler delivers for one event's newValue: a null
newValue delivers the empty list, a parsed value delivers it, a parse
failure delivers nothing (the catch is a noop). -/
def deliverOf : Option ParseResult → List (List Employee)
  | none => [[]]
  | some (ParseResult.ok l) => [l]
  | some ParseResult.malformed => []

/-- The callback invocations of one local subscription processing a list of
events: act is whether the storage listener is still registered, pend
whether the initial load-then-callback is still in flight.  The disposer
only removes the storage listener; it does not cancel the pending initial
delivery. -/
def localSubRun (store : List Employee) : Bool → Bool → List LEvent → List (List Employee)
  | _, _, [] => []
  | act, pend, LEvent.initDone :: es =>
      if pend then store :: localSubRun store act false es
      else localSubRun store act pend es
  | act, pend, LEvent.storage k v :: es =>
      if act && (k == STORAGE_KEY) then deliverOf v ++ localSubRun store act pend es
      else localSubRun store act pend es
  | _, pend, LEvent.unsub :: es => localSubRun store false pend es

/-- The Employee a parent snapshot document contributes before its task
listener has delivered: fields from the document, an empty task list. -/
def convDoc (d : RemoteEmp) : Employee :=
  { id := d.id, name := d.name, startDate := some d.startDate,
    role := some d.role, manager := some d.manager, email := some d.email,
    tasks := [] }

/-- The state of one remote subscription: whether the asynchronous ensure
has resolved, whether the parent collection listener is attached, the base
map keyed by employee id, and the employee ids with an attached task
listener. -/
structure RSubState where
  ensured : Bool
  parentAttached : Bool
  base : List (String × Employee)
  listeners : List String
  deriving DecidableEq

/-- The events a remote subscription can observe: the resolution of the
asynchronous ensure (whose then-callback attaches the parent listener
unconditionally), a parent collection snapshot, a task sub-collection
snapshot, and the call of the returned disposer. -/
inductive REvent where
  | ensureDone
  | parentSnap (docs : List RemoteEmp)
  | taskSnap (empId : String) (tasks : List Task)
  | unsub

/-- A task snapshot folded into one base entry. -/
def setEmpTasks (kv : String × Employee) (eId : String) (ts : List Task) :
    String × Employee :=
  if kv.1 = eId then (kv.1, { kv.2 with tasks := ts }) else kv

/-- The callback invocations of one remote subscription processing a list
of events, following the source handler: a parent snapshot rebuilds the
base, tears down and re-attaches the per-employee task listeners and
invokes the callback; a task snapshot of a listened employee updates the
base and invokes the callback; the disposer detaches the parent listener if
it exists and clears the task listeners, but ensure resolving later still
attaches a fresh parent listener. -/
def rrun : RSubState → List REvent → List (List Employee)
  | _, [] => []
  | s, REvent.ensureDone :: es =>
      if s.ensured then rrun s es
      else rrun { s with ensured := true, parentAttached := true } es
  | s, REvent.parentSnap docs :: es =>
      if s.parentAttached then
        (docs.map fun d => (d.id, convDoc d)).map Prod.snd ::
          rrun { s with base := docs.map fun d => (d.id, convDoc d),
                        listeners := docs.map RemoteEmp.id } es
      else rrun s es
  | s, REvent.taskSnap eId ts :: es =>
      if eId ∈ s.listeners then
        (s.base.map fun kv => setEmpTasks kv eId ts).map Prod.snd ::
          rrun { s with base := s.base.map fun kv => setEmpTasks kv eId ts } es
      else rrun s es
  | s, REvent.unsub :: es =>
      rrun { s with parentAttached := false, listeners := [] } es

/-- The state of a freshly created remote subscription. -/
def initRSub : RSubState :=
  { ensured := false, parentAttached := false, base := [], listeners := [] }

/-- Claim C1 (amended): a local subscription delivers the current snapshot
whenever its scheduled initial load completes, and once disposed with the
initial delivery already made it never invokes the callback again; a remote
subscription invokes nothing further once it is disposed after ensure has
resolved with all listeners cleared, and delivers the full current snapshot
on the first parent snapshot after ensure resolves.  The unqualified claim
fails for a disposal racing the initial asynchronous step, see the
counterexample. -/
theorem claim_C1_subscribe :
    (∀ (store : List Employee) (es : List LEvent) (act : Bool),
      LEvent.initDone ∈ es → store ∈ localSubRun store act true es)
    ∧ (∀ (store : List Employee) (es : List LEvent),
      localSubRun store false false es = [])
    ∧ (∀ (s : RSubState) (es : List REvent),
      s.ensured = true → s.parentAttached = false → s.listeners = [] →
      rrun s es = [])
    ∧ (∀ (docs : List RemoteEmp) (es : List REvent),
      rrun initRSub (REvent.ensureDone :: REvent.parentSnap docs :: es) =
        docs.map convDoc ::
          rrun { ensured := true, parentAttached := true,
                 base := docs.map fun d => (d.id, convDoc d),
                 listeners := docs.map RemoteEmp.id } es) := by
  refine ⟨?_, ?_, ?_, ?_⟩
  · intro store es
    induction es with
    | nil => intro act h; simp at h
    | cons e es ih =>
        intro act h
        cases e with
        | initDone =>
            rw [localSubRun, if_pos rfl]
            exact List.mem_cons_self _ _
        | storage k v =>
            have h2 : LEvent.initDone ∈ es := by
              rcases List.mem_cons.mp h with hh | hh
              · exact LEvent.noConfusion hh
              · exact hh
            rw [localSubRun]
            by_cases hc : (act && (k == STORAGE_KEY)) = true
            · rw [if_pos hc]
              exact List.mem_append.mpr (Or.inr (ih act h2))
            · rw [if_neg hc]
              exact ih act h2
        | unsub =>
            have h2 : LEvent.initDone ∈ es := by
              rcases List.mem_cons.mp h with hh | hh
              · exact LEvent.noConfusion hh
              · exact hh
            rw [localSubRun]
            exact ih false h2
  · intro store es
    induction es with
    | nil => rfl
    | cons e es ih =>
        cases e with
        | initDone => rw [localSubRun, if_neg (by simp)]; exact ih
        | storage k v => rw [localSubRun, if_neg (by simp)]; exact ih
        | unsub => rw [localSubRun]; exact ih
  · intro s es
    induction es generalizing s with
    | nil => intro _ _ _; rfl
    | cons e es ih =>
        intro h1 h2 h3
        cases e with
        | ensureDone => rw [rrun, if_pos h1]; exact ih s h1 h2 h3
        | parentSnap docs =>
            rw [rrun, if_neg (by rw [h2]; exact Bool.false_ne_true)]
            exact ih s h1 h2 h3
        | taskSnap eId ts =>
            rw [rrun, if_neg (by rw [h3]; exact List.not_mem_nil eId)]
            exact ih s h1 h2 h3
        | unsub =>
            rw [rrun]
            exact ih _ h1 rfl rfl
  · intro docs es
    rw [rrun, if_neg (by rw [initRSub]; exact Bool.false_ne_true)]
    rw [rrun]
    rw [if_pos rfl]
    rw [List.map_map]
    rfl

/-- Claim C1 witness: the initial delivery on a concrete one-event trace,
and quiescence of a settled disposed remote subscription on a concrete
trace. -/
theorem claim_C1_subscribe_witness :
    ([] : List Employee) ∈ localSubRun [] true true [LEvent.initDone]
    ∧ rrun { ensured := true, parentAttached := false, base := [], listeners := [] }
        [REvent.parentSnap [{ id := "d1", name := "N" }]] = [] :=
  ⟨claim_C1_subscribe.1 [] [LEvent.initDone] true (List.mem_singleton.mpr rfl),
   claim_C1_subscribe.2.2.1
     { ensured := true, parentAttached := false, base := [], listeners := [] }
     [REvent.parentSnap [{ id := "d1", name := "N" }]] rfl rfl rfl⟩

/-- Claim C1 counterexample: the claim as stated is false for both
adapters.  Locally, a disposer called before the initial load resolves does
not cancel it, so the callback still fires once afterwards.  Remotely, a
disposer called before ensure resolves finds no listener to detach, ensure
then attaches the parent listener anyway, and the callback keeps firing on
snapshots after the unsubscribe. -/
theorem claim_C1_counterexample :
    localSubRun ([] : List Employee) true true [LEvent.unsub, LEvent.initDone] ≠ []
    ∧ rrun initRSub
        [REvent.unsub, REvent.ensureDone,
         REvent.parentSnap [{ id := "d1", name := "N" }]] ≠ [] := by
  constructor <;> decide

/-- Claim C10: a present but empty filter field is treated like an absent
one, because the source tests the field with JS truthiness: an empty status
or owner filter matches every task. -/
theorem claim_C10_empty_filter_matches (t : Task) :
    matchTaskHelper t { status := some "", owner := none } = true
    ∧ matchTaskHelper t { status := none, owner := some "" } = true
    ∧ matchTaskHelper t { status := some "", owner := some "" } = true := by
  refine ⟨?_, ?_, ?_⟩ <;>
    · rw [matchTaskHelper_eq_true_iff]
      constructor <;> intro h <;> simp [truthy] at h

end ITOnboarding
